import Mathlib

/-!
Shallow embedding of the container / cut / ordering logic of pyphi's
`models.py`, together with the connectivity-primitive collaborators it
uses, and proofs of the specification claims about them.

Python floats are modelled as rationals, node-index tuples as `List Nat`,
numpy 0/1 matrices as `List (List Nat)`, repertoire arrays as
`Option (List Rat)` (`none` standing for Python `None`), and machine
equality / ordering methods as `Bool`-valued functions.
-/

namespace pyphi

namespace constants

/-- Modelled from the spec: the process-wide phi-comparison precision
(`constants.EPSILON`, derived from `config.PRECISION`); the module defining
it is not under src/.  The spec only requires a fixed positive tolerance. -/
def EPSILON : ℚ := 1 / 1000000

end constants

namespace utils

/-- Modelled from the spec: `utils.phi_eq(a, b)` is true iff `|a - b|` is
within the configured precision; `utils` is not under src/. -/
def phi_eq (a b : ℚ) : Bool := |a - b| ≤ constants.EPSILON

/-- Modelled from the spec: `utils.relevant_connections(n, _from, to)`
returns an `n x n` 0/1 matrix whose entry `[i, j]` is 1 iff `i` is in
`_from` and `j` is in `to`; `utils` is not under src/. -/
def relevant_connections (n : Nat) (f t : List Nat) : List (List Nat) :=
  (List.range n).map (fun i => (List.range n).map (fun j => if i ∈ f ∧ j ∈ t then 1 else 0))

/-- Modelled from the spec: `utils.submatrix(matrix, row_indices,
col_indices)` restricts a matrix to the given rows and columns;
`utils` is not under src/. -/
def submatrix (m : List (List Nat)) (rows cols : List Nat) : List (List Nat) :=
  rows.map (fun i => cols.map (fun j => (m.getD i []).getD j 0))

/-- All size-`k` sublists of `l`, in lexicographic order of positions,
mirroring the `itertools.combinations` enumeration. -/
def combinations : Nat → List Nat → List (List Nat)
  | 0, _ => [[]]
  | _ + 1, [] => []
  | k + 1, x :: xs => (combinations k xs).map (fun s => x :: s) ++ combinations (k + 1) xs

/-- Modelled from the spec: `utils.powerset(indices)` enumerates all
subsets by increasing size, then by index order within each size;
`utils` is not under src/. -/
def powerset (l : List Nat) : List (List Nat) :=
  ((List.range (l.length + 1)).map (fun k => combinations k l)).flatten

/-- Modelled from the spec: `utils.state_of(mechanism, state)` projects a
state vector onto the mechanism's node indices; `utils` is not under src/. -/
def state_of (mechanism : List Nat) (state : List Nat) : List Nat :=
  mechanism.map (fun i => state.getD i 0)

/-- Elementwise product of two 0/1 matrices (numpy `*`). -/
def emul (x y : List (List Nat)) : List (List Nat) :=
  List.zipWith (List.zipWith (fun a b => a * b)) x y

/-- Whether any entry of a matrix equals 1 (numpy `np.any(m == 1)`). -/
def any_one (m : List (List Nat)) : Bool :=
  m.any (fun row => row.any (fun v => v == 1))

/-- Largest element of a list of naturals (0 for the empty list), used to
size cut matrices as `max(indices) + 1`. -/
def maxL (l : List Nat) : Nat := l.foldr max 0

/-- The Python expression `tuple(set(xs))` for a tuple of small
non-negative ints.  CPython iterates an int set in hash-slot order:
`hash(i) = i`, a freshly built table has 8 slots scanned in index order,
and int `i` lives in slot `i % 8` (growing the table keeps slot `i` for
`i < 8`), so the enumeration ascends by `i % 8` rather than by value.
The definition realizes that order, listing each slot's residue class in
ascending index order; it is exact for index sets whose distinct
elements occupy distinct slots, and for sets with every element below 8
(where it coincides with ascending value order).  Sets with slot
collisions depend on CPython probe and resize details beyond this
model. -/
def tuple_of_set (xs : List Nat) : List Nat :=
  ((List.range 8).map (fun s =>
    (List.range (maxL xs + 1)).filter (fun i => xs.contains i && i % 8 == s))).flatten

end utils

/-- A unidirectional cut: connections from `severed` to `intact` are
removed (`models.Cut`). -/
structure Cut where
  severed : List Nat
  intact : List Nat
deriving DecidableEq

namespace Cut

/-- Source `Cut.splits_mechanism`: the truthiness of
`set(mechanism) & set(severed) and set(mechanism) & set(intact)`,
i.e. whether the mechanism meets both sides of the cut. -/
def splits_mechanism (c : Cut) (mechanism : List Nat) : Bool :=
  mechanism.any (fun x => c.severed.contains x) && mechanism.any (fun x => c.intact.contains x)

/-- Source `Cut.cut_matrix`'s
`cut_indices = tuple(set(self[0] + self[1]))`: the set of indices
appearing in the cut, in CPython set-iteration (hash-slot) order. -/
def cut_indices (c : Cut) : List Nat :=
  utils.tuple_of_set (c.severed ++ c.intact)

/-- Source `Cut.cut_matrix`: an empty matrix if the cut holds no indices;
otherwise the relevant-connections matrix of size `max(cut indices) + 1`
restricted to the cut indices. -/
def cut_matrix (c : Cut) : List (List Nat) :=
  if c.cut_indices = [] then []
  else
    utils.submatrix
      (utils.relevant_connections (utils.maxL (c.severed ++ c.intact) + 1) c.severed c.intact)
      c.cut_indices c.cut_indices

end Cut

/-- Temporal direction of a repertoire computation: `DIRECTIONS[PAST]`
(cause) or `DIRECTIONS[FUTURE]` (effect). -/
inductive Direction where
  | past : Direction
  | future : Direction
deriving DecidableEq

/-- Python truthiness of an optional node tuple: `None` and the empty
tuple are falsy. -/
def truthy (p : Option (List Nat)) : Bool :=
  match p with
  | none => false
  | some l => !l.isEmpty

/-- Length of an optional node tuple; only consulted on truthy values. -/
def lenO (p : Option (List Nat)) : Nat := (p.getD []).length

/-- Python set equality `set(xs) == set(ys)` on node tuples. -/
def set_eq (xs ys : List Nat) : Bool :=
  xs.all (fun x => ys.contains x) && ys.all (fun y => xs.contains y)

/-- The `mechanism`/`purview` branch of `_general_eq`.  Note the source
condition is `_a is None or (_b is None and not _a == _b)` — precedence
binds the `and` tighter — so a `None` left attribute reports inequality
even when both sides are `None`; otherwise the tuples are compared as
sets. -/
def mech_eq (x y : Option (List Nat)) : Bool :=
  match x, y with
  | none, _ => false
  | some _, none => false
  | some xs, some ys => set_eq xs ys

/-- The `_numpy_aware_eq` comparison of two optional repertoire arrays:
`None` equals only `None`, arrays compare elementwise
(`np.array_equal`). -/
def rep_eq (x y : Option (List ℚ)) : Bool :=
  match x, y with
  | none, none => true
  | none, some _ => false
  | some _, none => false
  | some xs, some ys => decide (xs = ys)

/-- Python list lexicographic `<` on rational keys, as used by
`_Ordering.__lt__` on the `_order_by` lists. -/
def listLtQ : List ℚ → List ℚ → Bool
  | [], [] => false
  | [], _ :: _ => true
  | _ :: _, [] => false
  | a :: as, b :: bs => if a < b then true else if a = b then listLtQ as bs else false

/-- A minimum information partition record (`models.Mip`), with the
source's seven attributes.  The `partition` attribute is kept abstract as
an optional pair of mechanism/purview parts. -/
structure Mip where
  phi : ℚ
  direction : Direction
  mechanism : Option (List Nat)
  purview : Option (List Nat)
  partition : Option ((List Nat × List Nat) × (List Nat × List Nat))
  unpartitioned_repertoire : Option (List ℚ)
  partitioned_repertoire : Option (List ℚ)
deriving DecidableEq

namespace Mip

/-- The `_general_eq` call made by `Mip.__eq__`, specialised to its
attribute list `['phi', 'direction', 'mechanism',
'unpartitioned_repertoire']`: `phi` is compared with `phi_eq`,
`mechanism` with the set-equality branch, the rest with
`_numpy_aware_eq`. -/
def general_eq (a b : Mip) : Bool :=
  utils.phi_eq a.phi b.phi && decide (a.direction = b.direction) &&
    mech_eq a.mechanism b.mechanism &&
    rep_eq a.unpartitioned_repertoire b.unpartitioned_repertoire

/-- Source `Mip.__eq__`: general equality on
`(phi, direction, mechanism, unpartitioned_repertoire)`, plus equal
purview lengths when both purviews are truthy. -/
def eq (a b : Mip) : Bool :=
  if truthy a.purview && truthy b.purview then
    general_eq a b && decide (lenO a.purview = lenO b.purview)
  else general_eq a b

/-- Source `_PhiMechanismPurviewOrdering._order_by`, which `Mip`
inherits: `[phi, len(mechanism), len(purview)]`. -/
def order_by (m : Mip) : List ℚ :=
  [m.phi, ((m.mechanism.getD []).length : ℚ), ((m.purview.getD []).length : ℚ)]

/-- Source `_Ordering.__lt__` for `Mip`. -/
def lt (a b : Mip) : Bool := listLtQ a.order_by b.order_by

/-- Source `_Ordering.__le__` for `Mip`: `a < b or phi_eq(a.phi, b.phi)`. -/
def le (a b : Mip) : Bool := Mip.lt a b || utils.phi_eq a.phi b.phi

/-- Source `_Ordering.__ge__` for `Mip`: `b < a or phi_eq(a.phi, b.phi)`. -/
def ge (a b : Mip) : Bool := Mip.lt b a || utils.phi_eq a.phi b.phi

end Mip

/-- The network a subsystem belongs to; only its size and identity are
consulted by this core. -/
structure Network where
  size : Nat
deriving DecidableEq

/-- The subsystem collaborator interface consumed by this core: its
network, node indices, state, active cut and precomputed cut matrix. -/
structure Subsystem where
  network : Network
  node_indices : List Nat
  state : List Nat
  cut : Cut
  cut_matrix : List (List Nat)
deriving DecidableEq

/-- A maximally irreducible cause or effect (`models.Mice`), wrapping
exactly one `Mip`. -/
structure Mice where
  mip : Mip
deriving DecidableEq

namespace Mice

/-- Pass-through property `Mice.phi`. -/
def phi (m : Mice) : ℚ := m.mip.phi

/-- Pass-through property `Mice.direction`. -/
def direction (m : Mice) : Direction := m.mip.direction

/-- Pass-through property `Mice.mechanism`. -/
def mechanism (m : Mice) : Option (List Nat) := m.mip.mechanism

/-- Pass-through property `Mice.purview`. -/
def purview (m : Mice) : Option (List Nat) := m.mip.purview

/-- Pass-through property `Mice.repertoire` (the unpartitioned
repertoire). -/
def repertoire (m : Mice) : Option (List ℚ) := m.mip.unpartitioned_repertoire

/-- Source `Mice.__eq__`: delegates to the wrapped mips. -/
def eq (a b : Mice) : Bool := Mip.eq a.mip b.mip

/-- Source `Mice._relevant_connections`: the purview-to-mechanism (past)
or mechanism-to-purview (future) connection matrix at full network size,
restricted to the subsystem's node indices. -/
def relevant_connections (m : Mice) (s : Subsystem) : List (List Nat) :=
  let ft : List Nat × List Nat :=
    match m.mip.direction with
    | Direction.past => (m.mip.purview.getD [], m.mip.mechanism.getD [])
    | Direction.future => (m.mip.mechanism.getD [], m.mip.purview.getD [])
  utils.submatrix (utils.relevant_connections s.network.size ft.1 ft.2)
    s.node_indices s.node_indices

/-- Source `Mice.damaged_by_cut`: the subsystem's cut splits the
mechanism, or the elementwise product of the relevant connections with
the subsystem's precomputed cut matrix has an entry equal to 1. -/
def damaged_by_cut (m : Mice) (s : Subsystem) : Bool :=
  s.cut.splits_mechanism (m.mip.mechanism.getD []) ||
    utils.any_one (utils.emul (m.relevant_connections s) s.cut_matrix)

end Mice

/-- A concept (`models.Concept`): a mechanism's paired core cause and
core effect with its parent subsystem.  The write-once `time` bookkeeping
field carries no equality-relevant data and is omitted. -/
structure Concept where
  phi : ℚ
  mechanism : List Nat
  cause : Option Mice
  effect : Option Mice
  subsystem : Subsystem
  normalized : Bool
deriving DecidableEq

namespace Concept

/-- The value of `getattr(concept.cause, 'purview', None)`: `None` when
the concept has no cause, otherwise the cause's (possibly `None`)
purview. -/
def cause_purview (c : Concept) : Option (List Nat) :=
  match c.cause with
  | none => none
  | some m => m.mip.purview

/-- The value of `getattr(concept.effect, 'purview', None)`. -/
def effect_purview (c : Concept) : Option (List Nat) :=
  match c.effect with
  | none => none
  | some m => m.mip.purview

/-- The value of `getattr(concept.cause, 'repertoire', None)`. -/
def cause_repertoire (c : Concept) : Option (List ℚ) :=
  match c.cause with
  | none => none
  | some m => m.mip.unpartitioned_repertoire

/-- The value of `getattr(concept.effect, 'repertoire', None)`. -/
def effect_repertoire (c : Concept) : Option (List ℚ) :=
  match c.effect with
  | none => none
  | some m => m.mip.unpartitioned_repertoire

/-- Source `Concept.eq_repertoires`: `np.array_equal` on the cause and
effect repertoires. -/
def eq_repertoires (a b : Concept) : Bool :=
  rep_eq a.cause_repertoire b.cause_repertoire &&
    rep_eq a.effect_repertoire b.effect_repertoire

/-- Source `Concept.__eq__`.  Note that `phi` is compared with the plain
`==`, not with `phi_eq`; the mechanism-state projection uses
`self.mechanism` on both sides. -/
def eq (a b : Concept) : Bool :=
  decide (a.phi = b.phi) && decide (a.mechanism = b.mechanism) &&
    decide (utils.state_of a.mechanism a.subsystem.state =
      utils.state_of a.mechanism b.subsystem.state) &&
    decide (a.cause_purview = b.cause_purview) &&
    decide (a.effect_purview = b.effect_purview) &&
    eq_repertoires a b &&
    decide (a.subsystem.network = b.subsystem.network)

/-- Source `_PhiMechanismOrdering._order_by`, which `Concept` inherits:
`[phi, len(mechanism)]`. -/
def order_by (c : Concept) : List ℚ := [c.phi, (c.mechanism.length : ℚ)]

/-- Source `_Ordering.__lt__` for `Concept`. -/
def lt (a b : Concept) : Bool := listLtQ a.order_by b.order_by

/-- Source `_Ordering.__le__` for `Concept`. -/
def le (a b : Concept) : Bool := Concept.lt a b || utils.phi_eq a.phi b.phi

/-- Source `_Ordering.__ge__` for `Concept`. -/
def ge (a b : Concept) : Bool := Concept.lt b a || utils.phi_eq a.phi b.phi

end Concept

/-- The `_numpy_aware_eq` comparison of two constellations: equal length
and elementwise `Concept.__eq__`. -/
def constellation_eq (x y : List Concept) : Bool :=
  decide (x.length = y.length) && (List.zip x y).all (fun p => Concept.eq p.1 p.2)

/-- A system-level minimum information partition (`models.BigMip`).  The
write-once `time`/`small_phi_time` bookkeeping fields carry no
equality-relevant data and are omitted. -/
structure BigMip where
  phi : ℚ
  unpartitioned_constellation : List Concept
  partitioned_constellation : List Concept
  subsystem : Subsystem
  cut_subsystem : Subsystem
deriving DecidableEq

namespace BigMip

/-- Source `BigMip.__eq__`: `_general_eq` over `_bigmip_attributes`,
so `phi` uses `phi_eq` and the remaining four attributes use
`_numpy_aware_eq`. -/
def eq (a b : BigMip) : Bool :=
  utils.phi_eq a.phi b.phi &&
    constellation_eq a.unpartitioned_constellation b.unpartitioned_constellation &&
    constellation_eq a.partitioned_constellation b.partitioned_constellation &&
    decide (a.subsystem = b.subsystem) &&
    decide (a.cut_subsystem = b.cut_subsystem)

end BigMip

/-- One part of a partition: a mechanism/purview pair (`models.Part`). -/
structure Part where
  mechanism : List Nat
  purview : List Nat
deriving DecidableEq

/-- Modelled from the spec: a `KPartition` is an ordered sequence of
`Part`s; the class itself is not under src/ (only its tests are). -/
def KPartition : Type := List Part

/-- Modelled from the spec: a generalized k-way cut over a `KPartition`;
the class is not under src/ (only its tests are). -/
structure KCut where
  partition : List Part

namespace KCut

/-- Modelled from the spec: `KCut.indices`, the sorted union of node
indices appearing in any part's mechanism or purview. -/
def indices (k : KCut) : List Nat :=
  let all := (k.partition.map (fun p => p.mechanism ++ p.purview)).flatten
  (List.range (utils.maxL all + 1)).filter (fun i => all.contains i)

/-- Modelled from the spec: whether the connection from node `i` to node
`j` is severed by the cut.  The spec describes severing the connections
that cross the purview-group boundaries; concretely (matching the spec's
KCut test vector) `i -> j` is severed when some part's purview contains
`i` and `j` lies in the cut's indices outside that part's mechanism. -/
def severs (k : KCut) (i j : Nat) : Bool :=
  k.partition.any (fun p =>
    p.purview.contains i && (k.indices.contains j && !p.mechanism.contains j))

/-- Modelled from the spec: `KCut.cut_matrix(n)`, the `n x n` 0/1
indicator of severed connections. -/
def cut_matrix (k : KCut) (n : Nat) : List (List Nat) :=
  (List.range n).map (fun i => (List.range n).map (fun j => if k.severs i j then 1 else 0))

/-- Modelled from the spec: `KCut.apply_cut(cm)` zeroes exactly the
severed entries of a connectivity matrix and passes the rest through. -/
def apply_cut (k : KCut) (cm : List (List Nat)) : List (List Nat) :=
  cm.enum.map (fun r => r.2.enum.map (fun c => if k.severs r.1 c.1 then 0 else c.2))

/-- Modelled from the spec: `KCut.splits_mechanism(mechanism)`; a
mechanism is left whole only when some single part contains it in both
its mechanism and its purview (this reproduces the spec's KCut test
vector). -/
def splits_mechanism (k : KCut) (m : List Nat) : Bool :=
  !(k.partition.any (fun p =>
    m.all (fun x => p.mechanism.contains x) && m.all (fun x => p.purview.contains x)))

/-- Modelled from the spec: `KCut.all_cut_mechanisms()`, every subset of
the cut's indices that the cut splits, in canonical powerset order. -/
def all_cut_mechanisms (k : KCut) : List (List Nat) :=
  (utils.powerset k.indices).filter (fun m => k.splits_mechanism m)

end KCut

/-- An object appearing on the right of `mip == other`, with any of the
attributes consulted by `Mip.__eq__` possibly missing (`none` at the
outer level models a missing attribute, on which Python raises
`AttributeError`). -/
structure MipAttrs where
  phi : Option ℚ
  direction : Option Direction
  mechanism : Option (Option (List Nat))
  purview : Option (Option (List Nat))
  unpartitioned_repertoire : Option (Option (List ℚ))

/-- An object appearing on the right of `mice == other`; `Mice.__eq__`
consults only the `mip` attribute. -/
structure MiceAttrs where
  mip : Option Mip

/-- An object appearing on the right of `concept == other`, with the
attributes `Concept.__eq__` accesses directly possibly missing.  The
purview/repertoire lookups on `other.cause`/`other.effect` themselves use
`getattr(..., None)` and cannot fault. -/
structure ConceptAttrs where
  phi : Option ℚ
  mechanism : Option (List Nat)
  cause : Option (Option Mice)
  effect : Option (Option Mice)
  subsystem : Option Subsystem

/-- An object appearing on the right of `bigmip == other`, with any of
the five `_bigmip_attributes` possibly missing. -/
structure BigMipAttrs where
  phi : Option ℚ
  unpartitioned_constellation : Option (List Concept)
  partitioned_constellation : Option (List Concept)
  subsystem : Option Subsystem
  cut_subsystem : Option Subsystem

/-- Python attribute lookup: a missing attribute raises
`AttributeError`, modelled as `Except.error ()`. -/
def getattrE {α : Type} : Option α → Except Unit α
  | some v => Except.ok v
  | none => Except.error ()

namespace Mip

/-- The `_general_eq` call of `Mip.__eq__` against a duck-typed object:
its `try/except AttributeError` turns any missing attribute into the
result False instead of a fault. -/
def general_eq_attrs (a : Mip) (b : MipAttrs) : Bool :=
  match b.phi, b.direction, b.mechanism, b.unpartitioned_repertoire with
  | some bphi, some bdir, some bmech, some brep =>
      utils.phi_eq a.phi bphi && decide (a.direction = bdir) &&
        mech_eq a.mechanism bmech && rep_eq a.unpartitioned_repertoire brep
  | _, _, _, _ => false

/-- Source `Mip.__eq__` against a duck-typed object.  The guard
`self.purview and other.purview` evaluates `other.purview` outside any
`try/except`, but only when `self.purview` is truthy (Python `and`
short-circuits), so only that access can fault. -/
def eq_attrs (a : Mip) (b : MipAttrs) : Except Unit Bool :=
  if truthy a.purview then
    match getattrE b.purview with
    | Except.error e => Except.error e
    | Except.ok bpur =>
        Except.ok (if truthy bpur then
            general_eq_attrs a b && decide (lenO a.purview = lenO bpur)
          else general_eq_attrs a b)
  else Except.ok (general_eq_attrs a b)

end Mip

namespace Mice

/-- Source `Mice.__eq__` against a duck-typed object: `self.mip ==
other.mip` with no guard, so a missing `mip` attribute faults. -/
def eq_attrs (a : Mice) (b : MiceAttrs) : Except Unit Bool :=
  match getattrE b.mip with
  | Except.error e => Except.error e
  | Except.ok bmip => Except.ok (Mip.eq a.mip bmip)

end Mice

namespace Concept

/-- The value of `getattr(x, 'purview', None)` for an optional Mice. -/
def purview_of (x : Option Mice) : Option (List Nat) :=
  match x with
  | none => none
  | some m => m.mip.purview

/-- The value of `getattr(x, 'repertoire', None)` for an optional Mice. -/
def repertoire_of (x : Option Mice) : Option (List ℚ) :=
  match x with
  | none => none
  | some m => m.mip.unpartitioned_repertoire

/-- Source `Concept.__eq__` against a duck-typed object: the purview
bindings access `other.cause` / `other.effect` unguarded, then the
conjunction accesses `other.phi`, `other.mechanism` and
`other.subsystem` left to right with short-circuiting; any of those five
attributes being missing faults. -/
def eq_attrs (a : Concept) (b : ConceptAttrs) : Except Unit Bool :=
  match getattrE b.cause with
  | Except.error e => Except.error e
  | Except.ok bcause =>
    match getattrE b.effect with
    | Except.error e => Except.error e
    | Except.ok beffect =>
      match getattrE b.phi with
      | Except.error e => Except.error e
      | Except.ok bphi =>
        if decide (a.phi = bphi) = false then Except.ok false
        else
          match getattrE b.mechanism with
          | Except.error e => Except.error e
          | Except.ok bmech =>
            if decide (a.mechanism = bmech) = false then Except.ok false
            else
              match getattrE b.subsystem with
              | Except.error e => Except.error e
              | Except.ok bsub =>
                Except.ok
                  (decide (utils.state_of a.mechanism a.subsystem.state =
                      utils.state_of a.mechanism bsub.state) &&
                    decide (a.cause_purview = purview_of bcause) &&
                    decide (a.effect_purview = purview_of beffect) &&
                    (rep_eq a.cause_repertoire (repertoire_of bcause) &&
                      rep_eq a.effect_repertoire (repertoire_of beffect)) &&
                    decide (a.subsystem.network = bsub.network))

end Concept

namespace BigMip

/-- Source `BigMip.__eq__` against a duck-typed object: the whole
comparison runs inside `_general_eq`, whose `try/except AttributeError`
turns any missing attribute into the result False. -/
def eq_attrs (a : BigMip) (b : BigMipAttrs) : Bool :=
  match b.phi, b.unpartitioned_constellation, b.partitioned_constellation,
      b.subsystem, b.cut_subsystem with
  | some bphi, some bu, some bp, some bs, some bc =>
      utils.phi_eq a.phi bphi &&
        constellation_eq a.unpartitioned_constellation bu &&
        constellation_eq a.partitioned_constellation bp &&
        decide (a.subsystem = bs) && decide (a.cut_subsystem = bc)
  | _, _, _, _, _ => false

end BigMip

/-! Helper lemmas about list indexing and the matrix primitives. -/

theorem getD_eq_getElem_of_lt {α : Type} (l : List α) (i : Nat) (d : α) (h : i < l.length) :
    l.getD i d = l[i] := by
  simp [List.getD_eq_getElem?_getD, List.getElem?_eq_getElem h]

theorem getD_mem_of_lt {α : Type} (l : List α) (i : Nat) (d : α) (h : i < l.length) :
    l.getD i d ∈ l := by
  rw [getD_eq_getElem_of_lt l i d h]
  exact List.getElem_mem h

theorem getD_map_range {α : Type} (n : Nat) (f : Nat → α) (i : Nat) (d : α) (h : i < n) :
    ((List.range n).map f).getD i d = f i := by
  rw [List.getD_eq_getElem?_getD, List.getElem?_map, List.getElem?_range h]
  rfl

theorem getD_map_of_lt {α β : Type} (l : List α) (f : α → β) (i : Nat) (d : β) (d0 : α)
    (h : i < l.length) : (l.map f).getD i d = f (l.getD i d0) := by
  rw [List.getD_eq_getElem?_getD, List.getElem?_map, List.getElem?_eq_getElem h,
    getD_eq_getElem_of_lt l i d0 h]
  rfl

theorem getD_zipWith_of_lt {α β γ : Type} (f : α → β → γ) (x : List α) (y : List β)
    (i : Nat) (dx : α) (dy : β) (d : γ) (hx : i < x.length) (hy : i < y.length) :
    (List.zipWith f x y).getD i d = f (x.getD i dx) (y.getD i dy) := by
  rw [List.getD_eq_getElem?_getD, List.getElem?_zipWith, List.getElem?_eq_getElem hx,
    List.getElem?_eq_getElem hy, getD_eq_getElem_of_lt x i dx hx,
    getD_eq_getElem_of_lt y i dy hy]
  rfl

theorem any_one_iff (M : List (List Nat)) :
    utils.any_one M = true ↔
      ∃ a b : Nat, a < M.length ∧ b < (M.getD a []).length ∧ (M.getD a []).getD b 0 = 1 := by
  unfold utils.any_one
  rw [List.any_eq_true]
  constructor
  · rintro ⟨row, hrow, hany⟩
    rw [List.any_eq_true] at hany
    obtain ⟨v, hv, hbeq⟩ := hany
    obtain ⟨a, ha, hrowa⟩ := List.getElem_of_mem hrow
    obtain ⟨b, hb, hvb⟩ := List.getElem_of_mem hv
    refine ⟨a, b, ha, ?_, ?_⟩
    · rw [getD_eq_getElem_of_lt M a [] ha, hrowa]; exact hb
    · rw [getD_eq_getElem_of_lt M a [] ha, hrowa, getD_eq_getElem_of_lt row b 0 hb, hvb]
      simpa using hbeq
  · rintro ⟨a, b, ha, hb, hentry⟩
    refine ⟨M.getD a [], getD_mem_of_lt M a [] ha, ?_⟩
    rw [List.any_eq_true]
    exact ⟨(M.getD a []).getD b 0, getD_mem_of_lt _ b 0 hb, by rw [hentry]; rfl⟩

theorem submatrix_length (m : List (List Nat)) (rows cols : List Nat) :
    (utils.submatrix m rows cols).length = rows.length := by
  simp [utils.submatrix]

theorem submatrix_row (m : List (List Nat)) (rows cols : List Nat) (i : Nat)
    (hi : i < rows.length) :
    (utils.submatrix m rows cols).getD i [] =
      cols.map (fun j => (m.getD (rows.getD i 0) []).getD j 0) := by
  unfold utils.submatrix
  rw [getD_map_of_lt rows _ i [] 0 hi]

theorem submatrix_rc_entry (n : Nat) (F T rows cols : List Nat) (i j : Nat)
    (hi : i < rows.length) (hj : j < cols.length)
    (hin : rows.getD i 0 < n) (hjn : cols.getD j 0 < n) :
    ((utils.submatrix (utils.relevant_connections n F T) rows cols).getD i []).getD j 0 =
      if rows.getD i 0 ∈ F ∧ cols.getD j 0 ∈ T then 1 else 0 := by
  rw [submatrix_row _ rows cols i hi, getD_map_of_lt cols _ j 0 0 hj]
  unfold utils.relevant_connections
  rw [getD_map_range n _ (rows.getD i 0) [] hin, getD_map_range n _ (cols.getD j 0) 0 hjn]

theorem nat_mul_eq_one {m n : Nat} : m * n = 1 ↔ m = 1 ∧ n = 1 := by
  constructor
  · intro h
    exact ⟨Nat.eq_one_of_mul_eq_one_right h, Nat.eq_one_of_mul_eq_one_left h⟩
  · rintro ⟨rfl, rfl⟩
    rfl

theorem any_one_emul_submatrix (n : Nat) (F T idxs : List Nat) (C : List (List Nat))
    (hidx : ∀ i ∈ idxs, i < n)
    (hrows : C.length = idxs.length)
    (hcols : ∀ row ∈ C, row.length = idxs.length) :
    utils.any_one
        (utils.emul (utils.submatrix (utils.relevant_connections n F T) idxs idxs) C) = true ↔
      ∃ a b : Nat, a < idxs.length ∧ b < idxs.length ∧
        idxs.getD a 0 ∈ F ∧ idxs.getD b 0 ∈ T ∧ (C.getD a []).getD b 0 = 1 := by
  have hRlen : (utils.submatrix (utils.relevant_connections n F T) idxs idxs).length =
      idxs.length := submatrix_length _ _ _
  rw [any_one_iff]
  constructor
  · rintro ⟨a, b, ha, hb, hone⟩
    rw [utils.emul, List.length_zipWith, hRlen, hrows, min_self] at ha
    have haC : a < C.length := hrows ▸ ha
    have haR : a < (utils.submatrix (utils.relevant_connections n F T) idxs idxs).length :=
      hRlen ▸ ha
    rw [utils.emul, getD_zipWith_of_lt _ _ _ a [] [] [] haR haC] at hb hone
    rw [List.length_zipWith] at hb
    have hbR : b < ((utils.submatrix (utils.relevant_connections n F T) idxs idxs).getD
        a []).length := lt_of_lt_of_le hb inf_le_left
    have hbC : b < (C.getD a []).length := lt_of_lt_of_le hb inf_le_right
    have hbI : b < idxs.length := by
      rw [submatrix_row _ idxs idxs a ha, List.length_map] at hbR
      exact hbR
    rw [getD_zipWith_of_lt _ _ _ b 0 0 0 hbR hbC] at hone
    rw [submatrix_rc_entry n F T idxs idxs a b ha hbI
      (hidx _ (getD_mem_of_lt idxs a 0 ha)) (hidx _ (getD_mem_of_lt idxs b 0 hbI))] at hone
    rw [nat_mul_eq_one] at hone
    obtain ⟨hR1, hC1⟩ := hone
    by_cases hcond : idxs.getD a 0 ∈ F ∧ idxs.getD b 0 ∈ T
    · exact ⟨a, b, ha, hbI, hcond.1, hcond.2, hC1⟩
    · rw [if_neg hcond] at hR1
      exact absurd hR1 (by decide)
  · rintro ⟨a, b, ha, hb, haF, hbT, hC1⟩
    have haC : a < C.length := hrows ▸ ha
    have haR : a < (utils.submatrix (utils.relevant_connections n F T) idxs idxs).length :=
      hRlen ▸ ha
    have hbC : b < (C.getD a []).length := by
      rw [hcols (C.getD a []) (getD_mem_of_lt C a [] haC)]
      exact hb
    have hbR : b < ((utils.submatrix (utils.relevant_connections n F T) idxs idxs).getD
        a []).length := by
      rw [submatrix_row _ idxs idxs a ha, List.length_map]
      exact hb
    refine ⟨a, b, ?_, ?_, ?_⟩
    · rw [utils.emul, List.length_zipWith, hRlen, hrows, min_self]
      exact ha
    · rw [utils.emul, getD_zipWith_of_lt _ _ _ a [] [] [] haR haC, List.length_zipWith]
      exact lt_min hbR hbC
    · rw [utils.emul, getD_zipWith_of_lt _ _ _ a [] [] [] haR haC,
        getD_zipWith_of_lt _ _ _ b 0 0 0 hbR hbC,
        submatrix_rc_entry n F T idxs idxs a b ha hb
          (hidx _ (getD_mem_of_lt idxs a 0 ha)) (hidx _ (getD_mem_of_lt idxs b 0 hb)),
        if_pos ⟨haF, hbT⟩, hC1]

theorem set_eq_iff (xs ys : List Nat) :
    set_eq xs ys = true ↔ ∀ x : Nat, x ∈ xs ↔ x ∈ ys := by
  simp only [set_eq, Bool.and_eq_true, List.all_eq_true, List.contains, List.elem_eq_mem,
    decide_eq_true_eq]
  constructor
  · rintro ⟨h1, h2⟩ x
    exact ⟨fun hx => h1 x hx, fun hx => h2 x hx⟩
  · intro h
    exact ⟨fun x hx => (h x).1 hx, fun x hx => (h x).2 hx⟩

theorem set_eq_refl (xs : List Nat) : set_eq xs xs = true :=
  (set_eq_iff xs xs).2 (fun _ => Iff.rfl)

theorem rep_eq_iff (x y : Option (List ℚ)) : rep_eq x y = true ↔ x = y := by
  cases x <;> cases y <;> simp [rep_eq]

theorem rep_eq_refl (x : Option (List ℚ)) : rep_eq x x = true := (rep_eq_iff x x).2 rfl

theorem listLtQ_cons (a b : ℚ) (as bs : List ℚ) :
    listLtQ (a :: as) (b :: bs) = true ↔ (a < b ∨ (a = b ∧ listLtQ as bs = true)) := by
  by_cases h1 : a < b
  · simp [listLtQ, h1]
  · by_cases h2 : a = b
    · simp [listLtQ, h1, h2]
    · simp [listLtQ, h1, h2]

theorem concept_eq_refl (c : Concept) : Concept.eq c c = true := by
  simp [Concept.eq, Concept.eq_repertoires, rep_eq_refl]

theorem constellation_eq_refl (l : List Concept) : constellation_eq l l = true := by
  simp only [constellation_eq, Bool.and_eq_true, List.all_eq_true, decide_eq_true_eq]
  refine ⟨trivial, ?_⟩
  intro p hp
  have : p.1 = p.2 := by
    induction l with
    | nil => cases hp
    | cons a l ih =>
      rw [List.zip_cons_cons, List.mem_cons] at hp
      rcases hp with rfl | hp
      · rfl
      · exact ih hp
  rw [this]
  exact concept_eq_refl p.2

theorem mip_eq_of_parts (a b : Mip) (hdir : a.direction = b.direction)
    (hmech : a.mechanism = b.mechanism) (hsome : a.mechanism ≠ none)
    (hrep : a.unpartitioned_repertoire = b.unpartitioned_repertoire)
    (hpur : a.purview = b.purview) (hphi : utils.phi_eq a.phi b.phi = true) :
    Mip.eq a b = true := by
  obtain ⟨ma, hma⟩ := Option.ne_none_iff_exists'.1 hsome
  have hgen : Mip.general_eq a b = true := by
    unfold Mip.general_eq
    rw [← hdir, ← hmech, ← hrep, hma]
    simp [hphi, mech_eq, set_eq_refl, rep_eq_refl]
  unfold Mip.eq
  rw [← hpur]
  by_cases ht : truthy a.purview
  · simp [ht, hgen]
  · simp [ht, hgen]

/-! Concrete sample values used to instantiate the claims. -/

/-- A subsystem over a 2-node network whose cut severs the connection
from node 0 to node 1 and whose precomputed cut matrix marks the
connection from node 1 to node 0 as severed. -/
def subW : Subsystem :=
  Subsystem.mk (Network.mk 2) [0, 1] [0, 0] (Cut.mk [0] [1]) [[0, 1], [1, 0]]

/-- A past-direction Mice with mechanism `(0,)` and purview `(1,)`. -/
def miceW : Mice :=
  Mice.mk (Mip.mk 1 Direction.past (some [0]) (some [1]) none none none)

/-- A Mip with phi 1, mechanism `(0,)` and purview `(0,)`. -/
def mipPurSmall : Mip := Mip.mk 1 Direction.past (some [0]) (some [0]) none none none

/-- The same Mip as `mipPurSmall` except for a two-element purview. -/
def mipPurLarge : Mip := Mip.mk 1 Direction.past (some [0]) (some [0, 1]) none none none

/-- The same Mip as `mipPurSmall` except for a non-`None` unpartitioned
repertoire. -/
def mipRepOther : Mip :=
  Mip.mk 1 Direction.past (some [0]) (some [0]) none (some [1 / 2]) none

/-- The same Mip as `mipPurSmall` except for a sub-precision phi
shift. -/
def mipPhiShift : Mip :=
  Mip.mk (1 + 1 / 10000000) Direction.past (some [0]) (some [0]) none none none

/-- A sample subsystem for concepts over a 1-node network. -/
def subsystemSample : Subsystem :=
  Subsystem.mk (Network.mk 1) [0] [0] (Cut.mk [] []) []

/-- A concept with phi 0 over `subsystemSample`. -/
def conceptLow : Concept := Concept.mk 0 [0] none none subsystemSample false

/-- The same concept as `conceptLow` except that phi is `1 / 10000000`,
a sub-precision difference. -/
def conceptHigh : Concept := Concept.mk (1 / 10000000) [0] none none subsystemSample false

/-- A sample Mice used against attribute-deficient objects. -/
def miceSample : Mice :=
  Mice.mk (Mip.mk 0 Direction.past (some [0]) (some [0]) none none none)

/-- A sample BigMip used against attribute-deficient objects. -/
def bigSample : BigMip := BigMip.mk 0 [] [] subsystemSample subsystemSample

/-- A sample Concept used against attribute-deficient objects. -/
def conceptSample : Concept := Concept.mk 0 [0] none none subsystemSample false

/-- The KCut of the spec's test vector, built from the ordered parts
`((0,2)->(0,), ()->(2,), (3,)->(3,))`. -/
def kcutSample : KCut :=
  KCut.mk [Part.mk [0, 2] [0], Part.mk [] [2], Part.mk [3] [3]]

/-! The claims. -/

/-- C5: for every mechanism `m` and cut `c`, `c.splits_mechanism(m)` is
true iff `m` has nonempty intersection with `c.severed` and nonempty
intersection with `c.intact`. -/
theorem cut_splits_mechanism_spec (c : Cut) (m : List Nat) :
    c.splits_mechanism m = true ↔
      ((∃ x, x ∈ m ∧ x ∈ c.severed) ∧ (∃ x, x ∈ m ∧ x ∈ c.intact)) := by
  simp [Cut.splits_mechanism, List.any_eq_true]

/-- C9: the KCut built from parts `((0,2)->(0,), ()->(2,), (3,)->(3,))`
has indices `(0,2,3)`; applied to a 4x4 all-ones matrix it yields the
expected cut connectivity; its 4x4 cut matrix is the complement
indicator; it splits `(0,3)` and `(2,3)` but not `(0,)` or `(3,)`; and
its split mechanisms are exactly
`((2,), (0,2), (0,3), (2,3), (0,2,3))` in canonical subset order. -/
theorem kcut_test_vectors :
    kcutSample.indices = [0, 2, 3] ∧
    kcutSample.apply_cut (List.replicate 4 (List.replicate 4 1)) =
      [[1, 1, 1, 0], [1, 1, 1, 1], [0, 1, 0, 0], [0, 1, 0, 1]] ∧
    kcutSample.cut_matrix 4 =
      [[0, 0, 0, 1], [0, 0, 0, 0], [1, 0, 1, 1], [1, 0, 1, 0]] ∧
    kcutSample.splits_mechanism [0, 3] = true ∧
    kcutSample.splits_mechanism [2, 3] = true ∧
    kcutSample.splits_mechanism [0] = false ∧
    kcutSample.splits_mechanism [3] = false ∧
    kcutSample.all_cut_mechanisms = [[2], [0, 2], [0, 3], [2, 3], [0, 2, 3]] := by
  refine ⟨by decide, by decide, by decide, by decide, by decide, by decide, by decide, by decide⟩

/-- C1: a Mice is damaged by a subsystem's cut iff the cut splits its
mechanism, or the direction-dependent relevant-connections matrix
(purview rows and mechanism columns for past, mechanism rows and purview
columns for future), built at full network size and restricted to the
subsystem's node indices, marks as relevant some entry that the
subsystem's precomputed cut matrix marks with a 1. -/
theorem mice_damaged_by_cut_spec (m : Mice) (s : Subsystem) (mech pur F T : List Nat)
    (hm : m.mip.mechanism = some mech) (hp : m.mip.purview = some pur)
    (hft : (m.mip.direction = Direction.past ∧ F = pur ∧ T = mech) ∨
      (m.mip.direction = Direction.future ∧ F = mech ∧ T = pur))
    (hidx : ∀ i ∈ s.node_indices, i < s.network.size)
    (hrows : s.cut_matrix.length = s.node_indices.length)
    (hcols : ∀ row ∈ s.cut_matrix, row.length = s.node_indices.length) :
    Mice.damaged_by_cut m s = true ↔
      (s.cut.splits_mechanism mech = true ∨
        ∃ a b : Nat, a < s.node_indices.length ∧ b < s.node_indices.length ∧
          s.node_indices.getD a 0 ∈ F ∧ s.node_indices.getD b 0 ∈ T ∧
          (s.cut_matrix.getD a []).getD b 0 = 1) := by
  have hrel : m.relevant_connections s =
      utils.submatrix (utils.relevant_connections s.network.size F T)
        s.node_indices s.node_indices := by
    rcases hft with ⟨hd, hF, hT⟩ | ⟨hd, hF, hT⟩ <;>
      simp [Mice.relevant_connections, hd, hm, hp, hF, hT]
  unfold Mice.damaged_by_cut
  rw [hm]
  simp only [Option.getD_some]
  rw [hrel, Bool.or_eq_true,
    any_one_emul_submatrix s.network.size F T s.node_indices s.cut_matrix hidx hrows hcols]

/-- C1 witness: the characterization instantiated on a past-direction
Mice over a two-node subsystem whose cut matrix severs the relevant
purview-to-mechanism connection, concluding that it is damaged. -/
theorem mice_damaged_by_cut_spec_witness :
    Mice.damaged_by_cut miceW subW = true :=
  (mice_damaged_by_cut_spec miceW subW [0] [1] [1] [0] rfl rfl
      (Or.inl ⟨rfl, rfl, rfl⟩) (by decide) (by decide) (by decide)).2
    (Or.inr ⟨1, 0, by decide, by decide, by decide, by decide, by decide⟩)

/-- C7 counterexample: two Concepts equal in every other
equality-relevant attribute whose phi values differ by less than the
precision are nevertheless unequal, because `Concept.__eq__` compares
phi with plain equality instead of `phi_eq`. -/
theorem concept_eq_plain_phi_counterexample :
    utils.phi_eq conceptLow.phi conceptHigh.phi = true ∧
      conceptLow.mechanism = conceptHigh.mechanism ∧
      conceptLow.cause = conceptHigh.cause ∧
      conceptLow.effect = conceptHigh.effect ∧
      conceptLow.subsystem = conceptHigh.subsystem ∧
      conceptLow.normalized = conceptHigh.normalized ∧
      Concept.eq conceptLow conceptHigh = false := by
  refine ⟨?_, rfl, rfl, rfl, rfl, rfl, ?_⟩
  · simp only [utils.phi_eq, conceptLow, conceptHigh, constants.EPSILON, decide_eq_true_eq]
    norm_num [abs_le]
  · have h : ((0 : ℚ) = 1 / 10000000) = False := by norm_num
    simp [Concept.eq, conceptLow, conceptHigh, h]

/-- C7 amended: `Mip`, `Mice` and `BigMip` equality compare phi with the
tolerant `phi_eq` — same-type values equal in their other
equality-relevant attributes (with the mechanism present, for Mip and
Mice) whose phis agree up to precision are equal — while
`Concept.__eq__` compares phi with plain equality. -/
theorem phi_tolerant_eq_amended :
    (∀ a b : Mip, a.direction = b.direction → a.mechanism = b.mechanism →
      a.mechanism ≠ none → a.unpartitioned_repertoire = b.unpartitioned_repertoire →
      a.purview = b.purview → utils.phi_eq a.phi b.phi = true → Mip.eq a b = true) ∧
    (∀ a b : Mice, a.mip.direction = b.mip.direction → a.mip.mechanism = b.mip.mechanism →
      a.mip.mechanism ≠ none →
      a.mip.unpartitioned_repertoire = b.mip.unpartitioned_repertoire →
      a.mip.purview = b.mip.purview → utils.phi_eq a.mip.phi b.mip.phi = true →
      Mice.eq a b = true) ∧
    (∀ a b : BigMip, a.unpartitioned_constellation = b.unpartitioned_constellation →
      a.partitioned_constellation = b.partitioned_constellation →
      a.subsystem = b.subsystem → a.cut_subsystem = b.cut_subsystem →
      utils.phi_eq a.phi b.phi = true → BigMip.eq a b = true) := by
  refine ⟨fun a b => mip_eq_of_parts a b,
    fun a b hdir hmech hsome hrep hpur hphi =>
      mip_eq_of_parts a.mip b.mip hdir hmech hsome hrep hpur hphi, ?_⟩
  intro a b hu hpart hs hc hphi
  unfold BigMip.eq
  rw [hu, hpart, hs, hc]
  simp [hphi, constellation_eq_refl]

/-- C7 witness: the Mip clause instantiated on two concrete Mips that
differ only by a sub-precision phi shift. -/
theorem phi_tolerant_eq_amended_witness :
    mipPurSmall.direction = mipPhiShift.direction ∧
      mipPurSmall.mechanism = mipPhiShift.mechanism ∧ mipPurSmall.mechanism ≠ none ∧
      mipPurSmall.unpartitioned_repertoire = mipPhiShift.unpartitioned_repertoire ∧
      mipPurSmall.purview = mipPhiShift.purview ∧
      utils.phi_eq mipPurSmall.phi mipPhiShift.phi = true ∧
      Mip.eq mipPurSmall mipPhiShift = true := by
  have hphi : utils.phi_eq mipPurSmall.phi mipPhiShift.phi = true := by
    simp only [utils.phi_eq, mipPurSmall, mipPhiShift, constants.EPSILON, decide_eq_true_eq]
    norm_num [abs_le]
  exact ⟨rfl, rfl, by decide, rfl, rfl, hphi,
    phi_tolerant_eq_amended.1 mipPurSmall mipPhiShift rfl rfl (by decide) rfl rfl hphi⟩

/-- C8 counterexample: comparing a Mice for equality against an object
without a `mip` attribute propagates the missing-attribute fault
(`AttributeError`) instead of evaluating to not-equal. -/
theorem mice_eq_missing_attr_counterexample :
    Mice.eq_attrs miceSample (MiceAttrs.mk none) = Except.error () := rfl

/-- C8 amended: only the comparisons guarded by `_general_eq` treat a
missing attribute as not-equal: `BigMip.__eq__` always, and
`Mip.__eq__` for the attributes it passes to `_general_eq` when the
`purview` attribute is present.  `Mip.__eq__` propagates the
missing-attribute fault when its own purview is truthy and the other
object lacks a `purview` attribute; `Mice.__eq__` faults on a missing
`mip`; and `Concept.__eq__` faults on whichever of `cause`, `effect`,
`phi`, `mechanism`, `subsystem` its evaluation reaches (the comparison
short-circuits: a missing `mechanism` is only reached when the phis
compare equal, a missing `subsystem` only when the mechanisms also
compare equal). -/
theorem eq_missing_attr_amended :
    (∀ (a : BigMip) (b : BigMipAttrs),
      (b.phi = none ∨ b.unpartitioned_constellation = none ∨
        b.partitioned_constellation = none ∨ b.subsystem = none ∨
        b.cut_subsystem = none) → BigMip.eq_attrs a b = false) ∧
    (∀ (a : Mip) (b : MipAttrs) (bp : Option (List Nat)), b.purview = some bp →
      (b.phi = none ∨ b.direction = none ∨ b.mechanism = none ∨
        b.unpartitioned_repertoire = none) → Mip.eq_attrs a b = Except.ok false) ∧
    (∀ (a : Mip) (b : MipAttrs), truthy a.purview = true → b.purview = none →
      Mip.eq_attrs a b = Except.error ()) ∧
    (∀ (a : Mice) (b : MiceAttrs), b.mip = none →
      Mice.eq_attrs a b = Except.error ()) ∧
    (∀ (a : Concept) (b : ConceptAttrs), b.cause = none →
      Concept.eq_attrs a b = Except.error ()) ∧
    (∀ (a : Concept) (b : ConceptAttrs) (bc : Option Mice), b.cause = some bc →
      b.effect = none → Concept.eq_attrs a b = Except.error ()) ∧
    (∀ (a : Concept) (b : ConceptAttrs) (bc be : Option Mice), b.cause = some bc →
      b.effect = some be → b.phi = none → Concept.eq_attrs a b = Except.error ()) ∧
    (∀ (a : Concept) (b : ConceptAttrs) (bc be : Option Mice) (bphi : ℚ),
      b.cause = some bc → b.effect = some be → b.phi = some bphi → a.phi = bphi →
      b.mechanism = none → Concept.eq_attrs a b = Except.error ()) ∧
    (∀ (a : Concept) (b : ConceptAttrs) (bc be : Option Mice) (bphi : ℚ)
      (bmech : List Nat), b.cause = some bc → b.effect = some be → b.phi = some bphi →
      a.phi = bphi → b.mechanism = some bmech → a.mechanism = bmech →
      b.subsystem = none → Concept.eq_attrs a b = Except.error ()) := by
  refine ⟨?_, ?_, ?_, ?_, ?_, ?_, ?_, ?_, ?_⟩
  · intro a b h
    obtain ⟨p, u, q, s, c⟩ := b
    cases p <;> cases u <;> cases q <;> cases s <;> cases c <;>
      simp_all [BigMip.eq_attrs]
  · intro a b bp hbp h
    obtain ⟨p, d, mch, pu, r⟩ := b
    cases pu <;> cases p <;> cases d <;> cases mch <;> cases r <;>
      simp_all [Mip.eq_attrs, Mip.general_eq_attrs, getattrE]
  · intro a b ht hpu
    obtain ⟨p, d, mch, pu, r⟩ := b
    cases pu <;> simp_all [Mip.eq_attrs, getattrE]
  · intro a b h
    obtain ⟨mp⟩ := b
    cases mp <;> simp_all [Mice.eq_attrs, getattrE]
  · intro a b h
    obtain ⟨p, mch, cs, ef, sb⟩ := b
    cases cs <;> simp_all [Concept.eq_attrs, getattrE]
  · intro a b bc hbc hbe
    obtain ⟨p, mch, cs, ef, sb⟩ := b
    cases cs <;> cases ef <;> simp_all [Concept.eq_attrs, getattrE]
  · intro a b bc be hbc hbe hp
    obtain ⟨p, mch, cs, ef, sb⟩ := b
    cases cs <;> cases ef <;> cases p <;> simp_all [Concept.eq_attrs, getattrE]
  · intro a b bc be bphi hbc hbe hp hphi hm
    obtain ⟨p, mch, cs, ef, sb⟩ := b
    cases cs <;> cases ef <;> cases p <;> cases mch <;>
      simp_all [Concept.eq_attrs, getattrE]
  · intro a b bc be bphi bmech hbc hbe hp hphi hm hmech hs
    obtain ⟨p, mch, cs, ef, sb⟩ := b
    cases cs <;> cases ef <;> cases p <;> cases mch <;> cases sb <;>
      simp_all [Concept.eq_attrs, getattrE]

/-- C8 witness: the BigMip not-equal clause, both Mip clauses and the
Concept cause-fault clause instantiated on concrete values against
attribute-deficient objects. -/
theorem eq_missing_attr_amended_witness :
    BigMip.eq_attrs bigSample (BigMipAttrs.mk none none none none none) = false ∧
      Mip.eq_attrs mipPurSmall (MipAttrs.mk none none none (some none) none) =
        Except.ok false ∧
      Mip.eq_attrs mipPurSmall (MipAttrs.mk none none none none none) =
        Except.error () ∧
      Concept.eq_attrs conceptSample (ConceptAttrs.mk none none none none none) =
        Except.error () :=
  ⟨eq_missing_attr_amended.1 bigSample (BigMipAttrs.mk none none none none none)
      (Or.inl rfl),
    eq_missing_attr_amended.2.1 mipPurSmall (MipAttrs.mk none none none (some none) none)
      none rfl (Or.inl rfl),
    eq_missing_attr_amended.2.2.1 mipPurSmall (MipAttrs.mk none none none none none)
      rfl rfl,
    eq_missing_attr_amended.2.2.2.2.1 conceptSample
      (ConceptAttrs.mk none none none none none) rfl⟩

/-- C10: Mip equality is not reflexive at the `mechanism = None` edge
case: any Mip whose mechanism is `None` compares unequal to itself,
because the mechanism branch of `_general_eq` reports inequality
whenever the left attribute is `None`. -/
theorem mip_eq_none_mechanism_irreflexive (m : Mip) (h : m.mechanism = none) :
    Mip.eq m m = false := by
  simp [Mip.eq, Mip.general_eq, mech_eq, h]

/-- C2: two Mips are equal iff their phis agree up to precision, their
directions agree, their mechanisms are equal as sets, their
unpartitioned repertoires are equal as arrays, and, when both purviews
are present, their purview lengths agree; partition, partitioned
repertoire and purview identity are ignored. -/
theorem mip_eq_spec (a b : Mip) (ma mb : List Nat)
    (hma : a.mechanism = some ma) (hmb : b.mechanism = some mb) :
    Mip.eq a b = true ↔
      (utils.phi_eq a.phi b.phi = true ∧ a.direction = b.direction ∧
        (∀ x : Nat, x ∈ ma ↔ x ∈ mb) ∧
        a.unpartitioned_repertoire = b.unpartitioned_repertoire ∧
        (truthy a.purview = true → truthy b.purview = true →
          lenO a.purview = lenO b.purview)) := by
  have hgen : Mip.general_eq a b = true ↔
      (utils.phi_eq a.phi b.phi = true ∧ a.direction = b.direction ∧
        (∀ x : Nat, x ∈ ma ↔ x ∈ mb) ∧
        a.unpartitioned_repertoire = b.unpartitioned_repertoire) := by
    rw [Mip.general_eq, hma, hmb]
    simp only [mech_eq, Bool.and_eq_true, decide_eq_true_eq, set_eq_iff, rep_eq_iff]
    tauto
  by_cases hc : (truthy a.purview && truthy b.purview) = true
  · have hc2 := hc
    rw [Bool.and_eq_true] at hc2
    obtain ⟨hta, htb⟩ := hc2
    rw [Mip.eq, if_pos hc]
    simp only [Bool.and_eq_true, decide_eq_true_eq]
    rw [hgen]
    constructor
    · rintro ⟨⟨h1, h2, h3, h4⟩, h5⟩
      exact ⟨h1, h2, h3, h4, fun _ _ => h5⟩
    · rintro ⟨h1, h2, h3, h4, h5⟩
      exact ⟨⟨h1, h2, h3, h4⟩, h5 hta htb⟩
  · rw [Mip.eq, if_neg hc]
    rw [hgen]
    have hor : truthy a.purview = false ∨ truthy b.purview = false := by
      rcases Bool.eq_false_or_eq_true (truthy a.purview) with h | h
      · rcases Bool.eq_false_or_eq_true (truthy b.purview) with h2 | h2
        · exact absurd (by rw [h, h2]; rfl) hc
        · exact Or.inr h2
      · exact Or.inl h
    constructor
    · rintro ⟨h1, h2, h3, h4⟩
      refine ⟨h1, h2, h3, h4, fun hta htb => ?_⟩
      rcases hor with h | h
      · rw [hta] at h; cases h
      · rw [htb] at h; cases h
    · rintro ⟨h1, h2, h3, h4, _⟩
      exact ⟨h1, h2, h3, h4⟩

/-- C2 witness: the equality characterization instantiated on two
concrete Mips that differ only in the unpartitioned repertoire. -/
theorem mip_eq_spec_witness :
    mipPurSmall.mechanism = some [0] ∧ mipRepOther.mechanism = some [0] ∧
      (Mip.eq mipPurSmall mipRepOther = true ↔
        (utils.phi_eq mipPurSmall.phi mipRepOther.phi = true ∧
          mipPurSmall.direction = mipRepOther.direction ∧
          (∀ x : Nat, x ∈ ([0] : List Nat) ↔ x ∈ ([0] : List Nat)) ∧
          mipPurSmall.unpartitioned_repertoire = mipRepOther.unpartitioned_repertoire ∧
          (truthy mipPurSmall.purview = true → truthy mipRepOther.purview = true →
            lenO mipPurSmall.purview = lenO mipRepOther.purview))) :=
  ⟨rfl, rfl, mip_eq_spec mipPurSmall mipRepOther [0] [0] rfl rfl⟩

/-- C3 counterexample: `Mip.__lt__` is not determined by the two-part
key `[phi, len(mechanism)]`: two Mips with equal phi and equal mechanism
size but different purview sizes compare strictly less. -/
theorem mip_lt_two_key_counterexample :
    Mip.lt mipPurSmall mipPurLarge = true ∧
      listLtQ [mipPurSmall.phi, (lenO mipPurSmall.mechanism : ℚ)]
        [mipPurLarge.phi, (lenO mipPurLarge.mechanism : ℚ)] = false := by
  constructor
  · norm_num [Mip.lt, Mip.order_by, mipPurSmall, mipPurLarge, listLtQ, lenO]
  · norm_num [mipPurSmall, mipPurLarge, listLtQ, lenO]

/-- C3 amended: `Mip` inherits the Mice-like ordering key
`[phi, len(mechanism), len(purview)]`, while `Concept` orders by
`[phi, len(mechanism)]`: in both cases `a < b` iff the key is
lexicographically less. -/
theorem mip_concept_ordering_keys :
    (∀ a b : Mip, Mip.lt a b = true ↔
        (a.phi < b.phi ∨ (a.phi = b.phi ∧
          (lenO a.mechanism < lenO b.mechanism ∨
            (lenO a.mechanism = lenO b.mechanism ∧ lenO a.purview < lenO b.purview))))) ∧
    (∀ a b : Concept, Concept.lt a b = true ↔
        (a.phi < b.phi ∨ (a.phi = b.phi ∧ a.mechanism.length < b.mechanism.length))) := by
  constructor
  · intro a b
    rw [Mip.lt, Mip.order_by, Mip.order_by, listLtQ_cons, listLtQ_cons, listLtQ_cons]
    simp [listLtQ, Nat.cast_lt, Nat.cast_inj, lenO]
  · intro a b
    rw [Concept.lt, Concept.order_by, Concept.order_by, listLtQ_cons, listLtQ_cons]
    simp [listLtQ, Nat.cast_lt, Nat.cast_inj]

/-- C4: for every pair of same-type containers, `a <= b` iff `a < b` or
the phis agree up to precision; consequently tolerant phi agreement with
equal secondary keys makes both `a <= b` and `a >= b` hold, even for a
pair that is unequal under the full attribute equality (the ordering is
a preorder, not antisymmetric with respect to equality). -/
theorem ordering_le_preorder_spec :
    (∀ a b : Mip, Mip.le a b = true ↔
      (Mip.lt a b = true ∨ utils.phi_eq a.phi b.phi = true)) ∧
    (∀ a b : Concept, Concept.le a b = true ↔
      (Concept.lt a b = true ∨ utils.phi_eq a.phi b.phi = true)) ∧
    (∀ a b : Mip, utils.phi_eq a.phi b.phi = true → lenO a.mechanism = lenO b.mechanism →
      lenO a.purview = lenO b.purview → (Mip.le a b = true ∧ Mip.ge a b = true)) ∧
    (∃ a b : Mip, utils.phi_eq a.phi b.phi = true ∧
      lenO a.mechanism = lenO b.mechanism ∧ lenO a.purview = lenO b.purview ∧
      Mip.le a b = true ∧ Mip.ge a b = true ∧ Mip.eq a b = false) := by
  have hphi11 : utils.phi_eq (1 : ℚ) 1 = true := by
    simp only [utils.phi_eq, constants.EPSILON, decide_eq_true_eq]
    norm_num
  refine ⟨?_, ?_, ?_, ?_⟩
  · intro a b
    simp [Mip.le]
  · intro a b
    simp [Concept.le]
  · intro a b hphi _ _
    exact ⟨by simp [Mip.le, hphi], by simp [Mip.ge, hphi]⟩
  · refine ⟨mipPurSmall, mipRepOther, hphi11, rfl, rfl,
      by rw [Mip.le, Bool.or_eq_true]; exact Or.inr hphi11,
      by rw [Mip.ge, Bool.or_eq_true]; exact Or.inr hphi11, ?_⟩
    simp [Mip.eq, Mip.general_eq, mipPurSmall, mipRepOther, rep_eq, truthy]

/-- C4 witness: the `<=`/`>=` consequence instantiated on a concrete
Mip compared with itself. -/
theorem ordering_le_preorder_spec_witness :
    utils.phi_eq mipPurSmall.phi mipPurSmall.phi = true ∧
      lenO mipPurSmall.mechanism = lenO mipPurSmall.mechanism ∧
      lenO mipPurSmall.purview = lenO mipPurSmall.purview ∧
      (Mip.le mipPurSmall mipPurSmall = true ∧ Mip.ge mipPurSmall mipPurSmall = true) := by
  have hphi : utils.phi_eq mipPurSmall.phi mipPurSmall.phi = true := by
    simp only [utils.phi_eq, mipPurSmall, constants.EPSILON, decide_eq_true_eq]
    norm_num
  exact ⟨hphi, rfl, rfl, ordering_le_preorder_spec.2.2.1 mipPurSmall mipPurSmall hphi rfl rfl⟩

/-- C10 witness: the all-`None` Mip with phi 0 is unequal to itself. -/
theorem mip_eq_none_mechanism_irreflexive_witness :
    Mip.eq (Mip.mk 0 Direction.past none none none none none)
      (Mip.mk 0 Direction.past none none none none none) = false :=
  mip_eq_none_mechanism_irreflexive (Mip.mk 0 Direction.past none none none none none) rfl

end pyphi
